import Mathlib

/-!
Shallow embedding of the from-scratch CRISPR off-target classifier core
(`cnn_model.py`, `bert_model.py`, `final/crispr_bert.py`).

Modelling conventions:
* Scalars are `ℚ`.  The floating-point transcendentals (`np.exp`, `np.tanh`,
  `np.sqrt` and the constant `sqrt(2/pi)`) are abstract rational stand-ins
  bundled in the structure `Acts`; theorems that need a property of one of
  them (e.g. positivity of `exp`) take it as an explicit hypothesis.
* A vector is a function `ℕ → ℚ` (indices beyond the conventional width are
  unused); a matrix is `ℕ → ℕ → ℚ`.  A sequence of feature vectors is a
  `List Vec`, so sequence lengths are real data.
* The numpy batch loops (`for b in range(batch)`) apply the per-sample
  computation independently to each batch row; every tensor operation used in
  this code base (convolution, GRU step, dense, layer norm, attention,
  softmax, mean over width) acts row-wise in the batch dimension, so layers
  are embedded per sample and the batched entry points are pointwise
  wrappers over a batch-indexed family of inputs.
* Fallible numpy operations (fancy indexing with an out-of-range id,
  broadcasting of incompatible shapes) are embedded with `Option`.
-/

/-- A feature vector: entries indexed by `ℕ`. -/
def Vec : Type := ℕ → ℚ

/-- A matrix: entries indexed by row and column. -/
def Mat : Type := ℕ → ℕ → ℚ

/-- The all-zero vector (`np.zeros`). -/
def vzero : Vec := fun _ => 0

/-- Elementwise addition of two vectors. -/
def vadd (u v : Vec) : Vec := fun i => u i + v i

/-- Concatenation along the feature axis: the first `m` entries come from
`u`, the remainder from `v` (`np.concatenate(..., axis=-1)`). -/
def vcat (m : ℕ) (u v : Vec) : Vec := fun i => if i < m then u i else v (i - m)

/-- Row `i` of `M @ x` for an `m × n`-shaped use of `M`:
`(M @ x) i = Σ_{j<n} M i j * x j`. -/
def mvRow (n : ℕ) (M : Mat) (x : Vec) (i : ℕ) : ℚ :=
  ∑ j in Finset.range n, M i j * x j

/-- Column `j` of `x @ M` where `x` has width `n`:
`(x @ M) j = Σ_{i<n} x i * M i j`. -/
def vecMat (n : ℕ) (x : Vec) (M : Mat) : Vec :=
  fun j => ∑ i in Finset.range n, x i * M i j

/-- `np.clip(x, -500, 500)`. -/
def clip500 (x : ℚ) : ℚ := min 500 (max (-500) x)

/-- Maximum of a list of rationals (`np.max` over a nonempty axis; the
empty case, which numpy rejects, is given the junk value `0`). -/
def listMax : List ℚ → ℚ
  | [] => 0
  | a :: r => r.foldl max a

/-- Rational stand-ins for the floating-point transcendental functions used
by the source: `exp`, the raw `np.tanh`, `np.sqrt`, and the literal
constant `np.sqrt(2.0/np.pi)` appearing in GELU. -/
structure Acts where
  exp : ℚ → ℚ
  tanh : ℚ → ℚ
  sqrt : ℚ → ℚ
  s2pi : ℚ

/-- `BiGRU.sigmoid`: `1.0 / (1.0 + np.exp(-np.clip(x, -500, 500)))`. -/
def sigmQ (A : Acts) (x : ℚ) : ℚ := 1 / (1 + A.exp (-(clip500 x)))

/-- `BiGRU.tanh`: `np.tanh(np.clip(x, -500, 500))`. -/
def tanhQ (A : Acts) (x : ℚ) : ℚ := A.tanh (clip500 x)

/-! ## GRU (`cnn_model.BiGRU`, identically structured in `bert_model.BiGRU`) -/

/-- One direction's gate parameters of a GRU
(`W_z, U_z, b_z, W_r, U_r, b_r, W_h, U_h, b_h`). -/
structure GRUP where
  Wz : Mat
  Uz : Mat
  bz : Vec
  Wr : Mat
  Ur : Mat
  br : Vec
  Wh : Mat
  Uh : Mat
  bh : Vec

/-- `BiGRU.gru_step`: one GRU cell update.
`z = σ(Wz x + Uz h + bz)`, `r = σ(Wr x + Ur h + br)`,
`h~ = tanh(Wh x + Uh (r ⊙ h) + bh)`, `h_new = (1 - z) ⊙ h + z ⊙ h~`.
`inSz` is the input width, `hid` the hidden width. -/
def BiGRU_gru_step (A : Acts) (inSz hid : ℕ) (p : GRUP) (x h : Vec) : Vec :=
  let z : Vec := fun i => sigmQ A (mvRow inSz p.Wz x i + mvRow hid p.Uz h i + p.bz i)
  let r : Vec := fun i => sigmQ A (mvRow inSz p.Wr x i + mvRow hid p.Ur h i + p.br i)
  let ht : Vec := fun i =>
    tanhQ A (mvRow inSz p.Wh x i + mvRow hid p.Uh (fun j => r j * h j) i + p.bh i)
  fun i => (1 - z i) * h i + z i * ht i

/-- The list of hidden states produced by running the GRU cell along a
sequence from initial state `h0` (the per-timestep states stored into
`h_forward` / `h_backward` by the loops in `BiGRU.forward`). -/
def gruScan (A : Acts) (inSz hid : ℕ) (p : GRUP) (h0 : Vec) : List Vec → List Vec
  | [] => []
  | x :: xs =>
    let h1 := BiGRU_gru_step A inSz hid p x h0
    h1 :: gruScan A inSz hid p h1 xs

/-- The final hidden state after folding the GRU cell over a sequence. -/
def gruFold (A : Acts) (inSz hid : ℕ) (p : GRUP) (h0 : Vec) (xs : List Vec) : Vec :=
  xs.foldl (fun h x => BiGRU_gru_step A inSz hid p x h) h0

/-- `BiGRU.forward` (one batch row): the forward direction scans the
sequence left to right from a zero state, the backward direction scans it
right to left from its own zero state, and position `t` of the output is
the concatenation of the two directions' states at `t`. -/
def BiGRU_forward (A : Acts) (inSz hid : ℕ) (pf pb : GRUP) (xs : List Vec) : List Vec :=
  let hFwd := gruScan A inSz hid pf vzero xs
  let hBwd := (gruScan A inSz hid pb vzero xs.reverse).reverse
  List.zipWith (vcat hid) hFwd hBwd

/-- Batched `BiGRU.forward`: the source loops `for b in range(batch)` and
processes each row independently. -/
def BiGRU_forwardB (A : Acts) (inSz hid : ℕ) (pf pb : GRUP)
    (X : ℕ → List Vec) (b : ℕ) : List Vec :=
  BiGRU_forward A inSz hid pf pb (X b)

/-! ### Basic GRU lemmas -/

theorem gruScan_length (A : Acts) (inSz hid : ℕ) (p : GRUP) (h0 : Vec)
    (xs : List Vec) : (gruScan A inSz hid p h0 xs).length = xs.length := by
  induction xs generalizing h0 with
  | nil => rfl
  | cons x xs ih => simp [gruScan, ih]

theorem gruScan_getD (A : Acts) (inSz hid : ℕ) (p : GRUP) (h0 : Vec)
    (xs : List Vec) (t : ℕ) (ht : t < xs.length) :
    (gruScan A inSz hid p h0 xs).getD t vzero =
      gruFold A inSz hid p h0 (xs.take (t + 1)) := by
  induction xs generalizing h0 t with
  | nil => simp at ht
  | cons x xs ih =>
    cases t with
    | zero => simp [gruScan, gruFold]
    | succ t =>
      simp only [List.length_cons, Nat.succ_lt_succ_iff] at ht
      simp only [gruScan, List.getD_cons_succ, List.take_succ_cons, gruFold,
        List.foldl_cons]
      exact ih _ _ ht

theorem BiGRU_forward_length (A : Acts) (inSz hid : ℕ) (pf pb : GRUP)
    (xs : List Vec) : (BiGRU_forward A inSz hid pf pb xs).length = xs.length := by
  simp [BiGRU_forward, gruScan_length]

/-! ## Dense and Dropout (`cnn_model.Dense`/`Dropout`; `bert_model` has
textually identical copies of both classes) -/

/-- Parameters of a `Dense` layer: weight matrix, bias, and the stored
activation string (`None` or a Python string). -/
structure DenseP where
  w : Mat
  b : Vec
  act : Option String

/-- The bare linear part of `Dense.forward`: `x @ W + b`. -/
def denseLin (nIn : ℕ) (w : Mat) (b : Vec) (x : Vec) : Vec :=
  fun j => vecMat nIn x w j + b j

/-- `Dense.forward` for one row: linear map, then the activation selected
by string comparison.  An unrecognized string (or `None`) falls through
every `elif` and returns the linear output unchanged.  Softmax is
numerically stabilized by subtracting the row maximum (`np.max` over the
last axis, i.e. over the `nOut` output entries). -/
def Dense_forward (A : Acts) (nIn nOut : ℕ) (p : DenseP) (x : Vec) : Vec :=
  let lin : Vec := denseLin nIn p.w p.b x
  if p.act = some "relu" then
    fun j => max 0 (lin j)
  else if p.act = some "sigmoid" then
    fun j => 1 / (1 + A.exp (-(clip500 (lin j))))
  else if p.act = some "softmax" then
    let m := listMax ((List.range nOut).map lin)
    fun j => A.exp (lin j - m) / ∑ k in Finset.range nOut, A.exp (lin k - m)
  else
    lin

/-- `Dropout.forward` for one row.  The per-call random mask drawn by
`np.random.binomial(...)/(1-rate)` is modelled as an oracle argument `m`;
when `training` is false or the rate is not positive the input is returned
unchanged. -/
def Dropout_forward (rate : ℚ) (training : Bool) (m : Vec) (x : Vec) : Vec :=
  if training = true ∧ 0 < rate then fun i => x i * m i else x

/-- Dropout applied to a sequence of rows (mask oracle indexed by position
and feature). -/
def dropoutSeq (rate : ℚ) (training : Bool) (m : ℕ → ℕ → ℚ) (x : List Vec) :
    List Vec :=
  if training = true ∧ 0 < rate then
    List.zipWith (fun t v => fun j => v j * m t j) (List.range x.length) x
  else x

/-! ## Conv2D (`cnn_model.Conv2D`)

The layer is used only with `in_channels = 1`, square kernels and
`stride = 1` (the four inception paths).  `Conv2D.forward` computes
`np.sum(window * self.weights[f])` where `window` has shape
`(k, k, 1)` and `self.weights[f]` has shape `(1, k, k)`; numpy broadcasts
these to `(k, k, k)`, so the summed product is
`Σ_{a,b,c} window[a,b,0] * weights[f][0,b,c]` — not the standard
convolution inner product.  The embedding reproduces this faithfully. -/

/-- Zero padding of a `(h, w)` single-channel image by `p` on each side:
entry `(u, v)` of the padded image. -/
def padded (h w p : ℕ) (x : Mat) (u v : ℕ) : ℚ :=
  if p ≤ u ∧ u < h + p ∧ p ≤ v ∧ v < w + p then x (u - p) (v - p) else 0

/-- One output entry of `Conv2D.forward` (in_channels 1, square kernel `k`,
stride 1, padding `p`, input height `h` and width `w`): filter `f` at
output position `(i, j)`, with the broadcast semantics described above.
`wt f b c` is `self.weights[f][0][b][c]`. -/
def convEntry (h w k p : ℕ) (wt : ℕ → ℕ → ℕ → ℚ) (bs : Vec) (x : Mat)
    (i j f : ℕ) : ℚ :=
  (∑ a in Finset.range k, ∑ b in Finset.range k, ∑ c in Finset.range k,
      padded h w p x (i + a) (j + b) * wt f b c) + bs f

/-- Output height/width of the convolution:
`(dim + 2*padding - kernel) // stride + 1` with stride 1. -/
def convOut (dim p k : ℕ) : ℕ := dim + 2 * p - k + 1

/-- The mutable state of a `Conv2D` layer object: its parameters plus the
`self.input` / `self.output` caches written by every `forward` call. -/
structure Conv2DState where
  weights : ℕ → ℕ → ℕ → ℚ
  bias : Vec
  inputCache : Option Mat
  outputCache : Option (ℕ → ℕ → ℕ → ℚ)

/-- `Conv2D.forward` as a state transformer: it stores the input into
`self.input`, computes the output tensor, stores it into `self.output`,
and returns it. -/
def Conv2D_forward (h w k p : ℕ) (s : Conv2DState) (x : Mat) :
    (ℕ → ℕ → ℕ → ℚ) × Conv2DState :=
  let out := fun i j f => convEntry h w k p s.weights s.bias x i j f
  (out, { s with inputCache := some x, outputCache := some out })

/-! ## InceptionCNN (`cnn_model.InceptionCNN`) -/

/-- Parameters of the four inception convolution paths (1×1 with 5
channels, 2×2 with 15, 3×3 with 25, 5×5 with 35); each `w` is
`weights[f][0][b][c]`, each `b` the per-filter bias. -/
structure InceptionP where
  w1 : ℕ → ℕ → ℕ → ℚ
  b1 : Vec
  w2 : ℕ → ℕ → ℕ → ℚ
  b2 : Vec
  w3 : ℕ → ℕ → ℕ → ℚ
  b3 : Vec
  w5 : ℕ → ℕ → ℕ → ℚ
  b5 : Vec

/-- The ReLU-activated 2×2 path re-aligned to `(26, 7)`: the unpadded 2×2
convolution has shape `(25, 6)`, and `InceptionCNN.forward` copies it into
the top-left corner of a zero `(26, 7, 15)` tensor, so entries with
`i ≥ 25` or `j ≥ 6` are zero. -/
def conv2Aligned (P : InceptionP) (x : Mat) (i j f : ℕ) : ℚ :=
  if i < 25 ∧ j < 6 then max 0 (convEntry 26 7 2 0 P.w2 P.b2 x i j f) else 0

/-- Channel `c` at position `(i, j)` of the concatenation of the four
ReLU-activated paths (`np.concatenate(..., axis=-1)`): channels `[0,5)`
from the 1×1 path, `[5,20)` from the re-aligned 2×2 path, `[20,45)` from
the 3×3 path (padding 1), `[45,80)` from the 5×5 path (padding 2). -/
def inceptionConcat (P : InceptionP) (x : Mat) (i j c : ℕ) : ℚ :=
  if c < 5 then max 0 (convEntry 26 7 1 0 P.w1 P.b1 x i j c)
  else if c < 20 then conv2Aligned P x i j (c - 5)
  else if c < 45 then max 0 (convEntry 26 7 3 1 P.w3 P.b3 x i j (c - 20))
  else max 0 (convEntry 26 7 5 2 P.w5 P.b5 x i j (c - 45))

/-- `InceptionCNN.forward` for one batch row: entry `(i, c)` of the
output is the mean over the width axis (7 positions) of the concatenated
channel tensor (`np.mean(conv_concat, axis=2)`). -/
def InceptionCNN_forward (P : InceptionP) (x : Mat) (i c : ℕ) : ℚ :=
  (∑ j in Finset.range 7, inceptionConcat P x i j c) / 7

/-- Batched `InceptionCNN.forward`: each batch row is processed
independently. -/
def InceptionCNN_forwardB (P : InceptionP) (X : ℕ → Mat) (b i c : ℕ) : ℚ :=
  InceptionCNN_forward P (X b) i c

/-! ## Embedding (`bert_model.Embedding`) -/

/-- Numpy integer fancy-indexing into an axis of size `V`: an id `i` with
`0 ≤ i < V` selects row `i`; a negative id with `-V ≤ i` wraps around to
row `V + i`; anything else raises `IndexError`. -/
def npIndex (V : ℕ) (i : ℤ) : Option ℕ :=
  if 0 ≤ i ∧ i < (V : ℤ) then some i.toNat
  else if -(V : ℤ) ≤ i ∧ i < 0 then some (i + V).toNat
  else none

/-- Option-valued map over a list: all elements must succeed
(numpy's vectorized fancy indexing either returns every row or raises). -/
def mapOpt {α β : Type} (f : α → Option β) : List α → Option (List β)
  | [] => some []
  | a :: l => (f a).bind fun b => (mapOpt f l).bind fun bs => some (b :: bs)

/-- `Embedding.forward`: `self.embeddings[x]` — row lookup for every id in
the list, failing if any id is outside numpy's accepted range.  `E k` is
row `k` of the embedding matrix. -/
def Embedding_forward (V : ℕ) (E : ℕ → Vec) (ids : List ℤ) :
    Option (List Vec) :=
  (mapOpt (npIndex V) ids).map (fun ks => ks.map E)

/-! ## LayerNorm (`bert_model.LayerNorm`) -/

/-- Parameters of a `LayerNorm` layer (`gamma`, `beta`, `eps`). -/
structure LNP where
  g : Vec
  beta : Vec
  eps : ℚ

/-- `LayerNorm.forward` on one row of width `D`: subtract the mean over
the last axis, divide by `sqrt(var + eps)` (`np.var` is the mean squared
deviation), then scale by `gamma` and shift by `beta`. -/
def LayerNorm_forward (A : Acts) (D : ℕ) (p : LNP) (v : Vec) : Vec :=
  let mean := (∑ i in Finset.range D, v i) / D
  let var := (∑ i in Finset.range D, (v i - mean) ^ 2) / D
  fun i => p.g i * ((v i - mean) / A.sqrt (var + p.eps)) + p.beta i

/-! ## Multi-head attention (`bert_model.MultiHeadAttention`) -/

/-- Projection matrices of multi-head attention. -/
structure MHAP where
  Wq : Mat
  Wk : Mat
  Wv : Mat
  Wo : Mat

/-- `MultiHeadAttention.forward` on one batch row (`D` = embed_dim, `H` =
num_heads, head width `D / H`): project to Q/K/V, split heads, per-head
scaled dot-product attention with max-stabilized softmax over the key
axis, concatenate heads, and apply the output projection. -/
def MultiHeadAttention_forward (A : Acts) (D H : ℕ) (p : MHAP)
    (x : List Vec) : List Vec :=
  let L := x.length
  let hd := D / H
  let q := x.map (fun v => vecMat D v p.Wq)
  let k := x.map (fun v => vecMat D v p.Wk)
  let vv := x.map (fun v => vecMat D v p.Wv)
  let score : ℕ → ℕ → ℕ → ℚ := fun h t s =>
    (∑ d in Finset.range hd, (q.getD t vzero) (h * hd + d) * (k.getD s vzero) (h * hd + d))
      / A.sqrt hd
  let mx : ℕ → ℕ → ℚ := fun h t => listMax ((List.range L).map (score h t))
  let wgt : ℕ → ℕ → ℕ → ℚ := fun h t s =>
    A.exp (score h t s - mx h t) / ∑ u in Finset.range L, A.exp (score h t u - mx h t)
  let headOut : ℕ → ℕ → ℕ → ℚ := fun h t d =>
    ∑ s in Finset.range L, wgt h t s * (vv.getD s vzero) (h * hd + d)
  (List.range L).map (fun t => vecMat D (fun j => headOut (j / hd) t (j % hd)) p.Wo)

/-! ## Feed-forward (`bert_model.FeedForward`) -/

/-- Parameters of the position-wise feed-forward network; `F` is the
hidden (`ff_dim`) width. -/
structure FFP where
  F : ℕ
  W1 : Mat
  b1 : Vec
  W2 : Mat
  b2 : Vec

/-- `FeedForward.gelu`: the tanh approximation
`0.5 * x * (1 + tanh(sqrt(2/pi) * (x + 0.044715 * x^3)))`; note the raw
(unclipped) `np.tanh` here. -/
def gelu (A : Acts) (x : ℚ) : ℚ :=
  0.5 * x * (1 + A.tanh (A.s2pi * (x + 0.044715 * x ^ 3)))

/-- `FeedForward.forward` on one row of width `D`. -/
def FeedForward_forward (A : Acts) (D : ℕ) (p : FFP) (v : Vec) : Vec :=
  let hidden : Vec := fun j => gelu A (vecMat D v p.W1 j + p.b1 j)
  fun o => vecMat p.F hidden p.W2 o + p.b2 o

/-! ## TransformerBlock (`bert_model.TransformerBlock`) -/

/-- Parameters of one transformer encoder block. -/
structure TBP where
  att : MHAP
  n1 : LNP
  ff : FFP
  n2 : LNP
  rate : ℚ

/-- The two per-call dropout mask oracles of one transformer block. -/
structure TBMask where
  mAtt : ℕ → ℕ → ℚ
  mFfn : ℕ → ℕ → ℚ

/-- `TransformerBlock.forward` on one batch row: attention, dropout,
residual add, layer norm; feed-forward, dropout, residual add, layer
norm. -/
def TransformerBlock_forward (A : Acts) (D H : ℕ) (p : TBP) (training : Bool)
    (m : TBMask) (x : List Vec) : List Vec :=
  let attn := MultiHeadAttention_forward A D H p.att x
  let attnD := dropoutSeq p.rate training m.mAtt attn
  let x1 := (List.zipWith vadd x attnD).map (LayerNorm_forward A D p.n1)
  let ffn := x1.map (FeedForward_forward A D p.ff)
  let ffnD := dropoutSeq p.rate training m.mFfn ffn
  (List.zipWith vadd x1 ffnD).map (LayerNorm_forward A D p.n2)

/-! ## BERTBranch (`bert_model.BERTBranch`) -/

/-- Parameters of the BERT branch: vocabulary size, embed width `D`, head
count `H`, the three embedding tables (token over `V`, position over 26,
segment over 2), the embedding layer norm, the transformer stack, and the
final projection (a `Dense` with `activation=None`). -/
structure BertP where
  V : ℕ
  D : ℕ
  H : ℕ
  tokE : ℕ → Vec
  posE : ℕ → Vec
  segE : ℕ → Vec
  embN : LNP
  layers : List TBP
  projW : Mat
  projB : Vec

/-- Mask oracles for one `BERTBranch.forward` call: the embedding dropout
mask and a fresh pair of masks for each transformer layer. -/
structure BertMasks where
  emb : ℕ → ℕ → ℚ
  blocks : ℕ → TBMask

/-- Sum of two embedding tensors along the sequence axis with numpy
broadcasting: equal lengths add elementwise; a length-1 operand
broadcasts; anything else is a shape error. -/
def bcastAdd (a b : List Vec) : Option (List Vec) :=
  if a.length = b.length then some (List.zipWith vadd a b)
  else if a.length = 1 then some (b.map (vadd (a.headD vzero)))
  else if b.length = 1 then some (a.map (fun v => vadd v (b.headD vzero)))
  else none

/-- The transformer stack: `for layer in self.transformer_layers: x =
layer.forward(x, training)`, with layer `k` consuming mask bundle `ms k`. -/
def runBlocks (A : Acts) (D H : ℕ) (training : Bool) (ms : ℕ → TBMask) :
    ℕ → List TBP → List Vec → List Vec
  | _, [], x => x
  | k, p :: rest, x =>
    runBlocks A D H training ms (k + 1) rest
      (TransformerBlock_forward A D H p training (ms k) x)

/-- `BERTBranch.forward` on one batch row: look up token, position and
segment embeddings (token table size `V`, position table size 26, segment
table size 2), sum them (`(token + position) + segment` with numpy
broadcasting), layer-norm, dropout (rate 0.1), run the transformer stack,
and project each position to the output width. -/
def BERTBranch_forward (A : Acts) (p : BertP) (tokenIds segmentIds positionIds : List ℤ)
    (training : Bool) (M : BertMasks) : Option (List Vec) := do
  let tokEm ← Embedding_forward p.V p.tokE tokenIds
  let posEm ← Embedding_forward 26 p.posE positionIds
  let segEm ← Embedding_forward 2 p.segE segmentIds
  let s1 ← bcastAdd tokEm posEm
  let emb ← bcastAdd s1 segEm
  let e1 := (dropoutSeq 0.1 training M.emb (emb.map (LayerNorm_forward A p.D p.embN)))
  let xOut := runBlocks A p.D p.H training M.blocks 0 p.layers e1
  pure (xOut.map (fun v =>
    Dense_forward A p.D 80 { w := p.projW, b := p.projB, act := none } v))

/-! ## Top-level fusion model (`final/crispr_bert.py`, class `CRISPR_BERT`) -/

/-- Weight/bias pair of a head `Dense` layer; the activations are fixed by
the `CRISPR_BERT` constructor (`relu`, `relu`, `softmax`). -/
structure WB where
  w : Mat
  b : Vec

/-- All parameters of a `CRISPR_BERT` instance: the inception CNN branch,
the BERT branch, the two dedicated BiGRUs (each with forward and backward
parameter sets), and the three head dense layers. -/
structure CrisprP where
  incep : InceptionP
  bert : BertP
  cnnGf : GRUP
  cnnGb : GRUP
  bertGf : GRUP
  bertGb : GRUP
  d1 : WB
  d2 : WB
  d3 : WB

/-- Mask oracles for one `CRISPR_BERT.forward` call: the BERT-branch masks
plus the two head dropout masks. -/
structure CrisprMasks where
  bert : BertMasks
  m1 : Vec
  m2 : Vec

/-- `CRISPR_BERT.forward` for one batch row.  CNN branch to `(26, 80)`,
BERT branch to `(26, 80)`, a dedicated `BiGRU(80, 20)` on each, the last
timestep of each (`[:, -1, :]`), scaling by `w1 = 0.2` / `w2 = 0.8`,
concatenation to width 80, then
dropout(0.35) → Dense(80→128, relu) → dropout(0.35) → Dense(128→64, relu)
→ Dense(64→2, softmax). -/
def CRISPR_BERT_forward (A : Acts) (θ : CrisprP) (cnnInput : Mat)
    (tokenIds segmentIds positionIds : List ℤ) (training : Bool)
    (M : CrisprMasks) : Option Vec :=
  let cnnFeat : List Vec :=
    (List.range 26).map (fun t => fun c => InceptionCNN_forward θ.incep cnnInput t c)
  (BERTBranch_forward A θ.bert tokenIds segmentIds positionIds training M.bert).map
    (fun bertFeat =>
      let cnnGru := BiGRU_forward A 80 20 θ.cnnGf θ.cnnGb cnnFeat
      let bertGru := BiGRU_forward A 80 20 θ.bertGf θ.bertGb bertFeat
      let cnnLast := cnnGru.getD (cnnGru.length - 1) vzero
      let bertLast := bertGru.getD (bertGru.length - 1) vzero
      let combined := vcat 40 (fun i => 0.2 * cnnLast i) (fun i => 0.8 * bertLast i)
      let x1 := Dropout_forward 0.35 training M.m1 combined
      let x2 := Dense_forward A 80 128 { w := θ.d1.w, b := θ.d1.b, act := some "relu" } x1
      let x3 := Dropout_forward 0.35 training M.m2 x2
      let x4 := Dense_forward A 128 64 { w := θ.d2.w, b := θ.d2.b, act := some "relu" } x3
      Dense_forward A 64 2 { w := θ.d3.w, b := θ.d3.b, act := some "softmax" } x4)

/-- `CRISPR_BERT.predict`: `forward(..., training=False)`. -/
def CRISPR_BERT_predict (A : Acts) (θ : CrisprP) (cnnInput : Mat)
    (tokenIds segmentIds positionIds : List ℤ) (M : CrisprMasks) : Option Vec :=
  CRISPR_BERT_forward A θ cnnInput tokenIds segmentIds positionIds false M

/-- `CRISPR_BERT.predict_class`: `np.argmax(self.predict(...), axis=1)`;
for a 2-entry row, `np.argmax` returns 1 exactly when entry 1 is strictly
larger than entry 0. -/
def CRISPR_BERT_predict_class (A : Acts) (θ : CrisprP) (cnnInput : Mat)
    (tokenIds segmentIds positionIds : List ℤ) (M : CrisprMasks) : Option ℕ :=
  (CRISPR_BERT_predict A θ cnnInput tokenIds segmentIds positionIds M).map
    (fun p => if p 0 < p 1 then 1 else 0)

/-! ## Helper lemmas -/

theorem dropout_not_training (rate : ℚ) (m x : Vec) :
    Dropout_forward rate false m x = x := by
  simp [Dropout_forward]

theorem dropout_rate_zero (training : Bool) (m x : Vec) :
    Dropout_forward 0 training m x = x := by
  simp [Dropout_forward]

theorem dropoutSeq_not_training (rate : ℚ) (m : ℕ → ℕ → ℚ) (x : List Vec) :
    dropoutSeq rate false m x = x := by
  simp [dropoutSeq]

theorem dropoutSeq_length (rate : ℚ) (tr : Bool) (m : ℕ → ℕ → ℚ) (x : List Vec) :
    (dropoutSeq rate tr m x).length = x.length := by
  unfold dropoutSeq
  split
  · simp
  · rfl

theorem bigru_fwd_half (A : Acts) (inSz hid : ℕ) (pf pb : GRUP) (xs : List Vec)
    (t : ℕ) (ht : t < xs.length) (i : ℕ) (hi : i < hid) :
    ((BiGRU_forward A inSz hid pf pb xs).getD t vzero) i =
      gruFold A inSz hid pf vzero (xs.take (t + 1)) i := by
  have h1 : t < (gruScan A inSz hid pf vzero xs).length := by
    rw [gruScan_length]; exact ht
  have h2 : t < ((gruScan A inSz hid pb vzero xs.reverse).reverse).length := by
    simpa [gruScan_length] using ht
  have h3 : t < (BiGRU_forward A inSz hid pf pb xs).length := by
    rw [BiGRU_forward_length]; exact ht
  have he : (BiGRU_forward A inSz hid pf pb xs).getD t vzero =
      vcat hid ((gruScan A inSz hid pf vzero xs).getD t vzero)
        (((gruScan A inSz hid pb vzero xs.reverse).reverse).getD t vzero) := by
    rw [List.getD_eq_getElem _ _ h3, List.getD_eq_getElem _ _ h1,
      List.getD_eq_getElem _ _ h2]
    simp only [BiGRU_forward]
    exact List.getElem_zipWith ..
  rw [he]
  simp only [vcat, if_pos hi]
  rw [gruScan_getD A inSz hid pf vzero xs t ht]

theorem bigru_bwd_half (A : Acts) (inSz hid : ℕ) (pf pb : GRUP) (xs : List Vec)
    (t : ℕ) (ht : t < xs.length) (i : ℕ) :
    ((BiGRU_forward A inSz hid pf pb xs).getD t vzero) (hid + i) =
      gruFold A inSz hid pb vzero ((xs.drop t).reverse) i := by
  have h1 : t < (gruScan A inSz hid pf vzero xs).length := by
    rw [gruScan_length]; exact ht
  have h2 : t < ((gruScan A inSz hid pb vzero xs.reverse).reverse).length := by
    simpa [gruScan_length] using ht
  have h3 : t < (BiGRU_forward A inSz hid pf pb xs).length := by
    rw [BiGRU_forward_length]; exact ht
  have h4 : (gruScan A inSz hid pb vzero xs.reverse).length = xs.length := by
    simp [gruScan_length]
  have h5 : xs.length - 1 - t < (gruScan A inSz hid pb vzero xs.reverse).length := by
    rw [h4]; omega
  have he : (BiGRU_forward A inSz hid pf pb xs).getD t vzero =
      vcat hid ((gruScan A inSz hid pf vzero xs).getD t vzero)
        (((gruScan A inSz hid pb vzero xs.reverse).reverse).getD t vzero) := by
    rw [List.getD_eq_getElem _ _ h3, List.getD_eq_getElem _ _ h1,
      List.getD_eq_getElem _ _ h2]
    simp only [BiGRU_forward]
    exact List.getElem_zipWith ..
  have hrev : ((gruScan A inSz hid pb vzero xs.reverse).reverse).getD t vzero =
      (gruScan A inSz hid pb vzero xs.reverse).getD (xs.length - 1 - t) vzero := by
    rw [List.getD_eq_getElem _ _ h2, List.getD_eq_getElem _ _ h5,
      List.getElem_reverse]
    congr 1
    rw [h4]
  rw [he]
  simp only [vcat, if_neg (by omega : ¬ hid + i < hid)]
  have hidx : hid + i - hid = i := by omega
  rw [hidx, hrev,
    gruScan_getD A inSz hid pb vzero xs.reverse _ (by rw [List.length_reverse]; omega)]
  have h8 : xs.length - 1 - t + 1 = xs.length - t := by omega
  rw [h8, List.take_reverse]
  have h9 : xs.length - (xs.length - t) = t := by omega
  rw [h9]

/-! ## Concrete instances used by witnesses and counterexamples -/

/-- All-zero matrix. -/
def mz0 : Mat := fun _ _ => 0

/-- All-zero conv filter bank. -/
def tz0 : ℕ → ℕ → ℕ → ℚ := fun _ _ _ => 0

/-- All-one vector. -/
def vone : Vec := fun _ => 1

/-- A concrete rational activation bundle with the qualitative properties
the proofs need: `exp` is everywhere positive, `tanh` is odd, bounded and
injective. -/
def actsQ : Acts where
  exp := fun q => ((q + 1) ^ 2 + 1) / 2
  tanh := fun q => q / (1 + |q|)
  sqrt := fun q => q
  s2pi := 4 / 5

theorem actsQ_exp_pos : ∀ q, 0 < actsQ.exp q := by
  intro q
  simp only [actsQ]
  positivity

/-- A degenerate activation bundle used by concrete counterexample
evaluations. -/
def actsId : Acts where
  exp := fun _ => 1
  tanh := fun q => q
  sqrt := fun q => q
  s2pi := 1

/-- GRU parameters: all gates zero except `W_h ≡ 1`. -/
def gruP0 : GRUP where
  Wz := mz0; Uz := mz0; bz := vzero
  Wr := mz0; Ur := mz0; br := vzero
  Wh := fun _ _ => 1; Uh := mz0; bh := vzero

/-- GRU parameters: all gates zero except `W_h ≡ 2`. -/
def gruP1 : GRUP where
  Wz := mz0; Uz := mz0; bz := vzero
  Wr := mz0; Ur := mz0; br := vzero
  Wh := fun _ _ => 2; Uh := mz0; bh := vzero

/-- All-zero GRU parameters. -/
def gruZ : GRUP where
  Wz := mz0; Uz := mz0; bz := vzero
  Wr := mz0; Ur := mz0; br := vzero
  Wh := mz0; Uh := mz0; bh := vzero

/-! ## Claim C3 -/

/-- C3: for every input sequence, `BiGRU.forward` returns one vector per
position; at position `t` the first `hid` features are the forward
direction's hidden state (the GRU cell folded over `x[0..t]` from a zero
initial state) and the features after `hid` are the backward direction's
hidden state (the cell folded over `x[T-1..t]` from its own zero initial
state); and each step computes the gates
`z = σ(Wz x + Uz h + bz)`, `r = σ(Wr x + Ur h + br)`,
`h~ = tanh(Wh x + Uh (r ⊙ h) + bh)`, `h_new = (1-z) ⊙ h + z ⊙ h~`,
with σ/tanh inputs clipped to `[-500, 500]`. -/
theorem C3_bigru_forward_halves (A : Acts) (inSz hid : ℕ) (pf pb : GRUP)
    (X : ℕ → List Vec) (b t : ℕ) (ht : t < (X b).length) :
    (BiGRU_forwardB A inSz hid pf pb X b).length = (X b).length ∧
    (∀ i, i < hid →
      ((BiGRU_forwardB A inSz hid pf pb X b).getD t vzero) i =
        gruFold A inSz hid pf vzero ((X b).take (t + 1)) i) ∧
    (∀ i, i < hid →
      ((BiGRU_forwardB A inSz hid pf pb X b).getD t vzero) (hid + i) =
        gruFold A inSz hid pb vzero (((X b).drop t).reverse) i) ∧
    (∀ x h i, BiGRU_gru_step A inSz hid pf x h i =
      (1 - sigmQ A (mvRow inSz pf.Wz x i + mvRow hid pf.Uz h i + pf.bz i)) * h i +
        sigmQ A (mvRow inSz pf.Wz x i + mvRow hid pf.Uz h i + pf.bz i) *
          tanhQ A (mvRow inSz pf.Wh x i +
            mvRow hid pf.Uh (fun j =>
              sigmQ A (mvRow inSz pf.Wr x j + mvRow hid pf.Ur h j + pf.br j) * h j) i +
            pf.bh i)) := by
  refine ⟨BiGRU_forward_length .., ?_, ?_, fun x h i => rfl⟩
  · exact fun i hi => bigru_fwd_half A inSz hid pf pb (X b) t ht i hi
  · exact fun i _ => bigru_bwd_half A inSz hid pf pb (X b) t ht i

theorem C3_bigru_forward_halves_witness :
    0 < ([vone] : List Vec).length ∧
    ((BiGRU_forwardB actsQ 1 1 gruP0 gruP1 (fun _ => [vone]) 0).length =
        ([vone] : List Vec).length ∧
      (∀ i, i < 1 →
        ((BiGRU_forwardB actsQ 1 1 gruP0 gruP1 (fun _ => [vone]) 0).getD 0 vzero) i =
          gruFold actsQ 1 1 gruP0 vzero (([vone] : List Vec).take (0 + 1)) i) ∧
      (∀ i, i < 1 →
        ((BiGRU_forwardB actsQ 1 1 gruP0 gruP1 (fun _ => [vone]) 0).getD 0 vzero) (1 + i) =
          gruFold actsQ 1 1 gruP1 vzero ((([vone] : List Vec).drop 0).reverse) i) ∧
      (∀ x h i, BiGRU_gru_step actsQ 1 1 gruP0 x h i =
        (1 - sigmQ actsQ (mvRow 1 gruP0.Wz x i + mvRow 1 gruP0.Uz h i + gruP0.bz i)) * h i +
          sigmQ actsQ (mvRow 1 gruP0.Wz x i + mvRow 1 gruP0.Uz h i + gruP0.bz i) *
            tanhQ actsQ (mvRow 1 gruP0.Wh x i +
              mvRow 1 gruP0.Uh (fun j =>
                sigmQ actsQ (mvRow 1 gruP0.Wr x j + mvRow 1 gruP0.Ur h j + gruP0.br j) * h j) i +
              gruP0.bh i))) :=
  ⟨by simp, C3_bigru_forward_halves actsQ 1 1 gruP0 gruP1 (fun _ => [vone]) 0 0 (by simp)⟩

/-! ## Claim C5 -/

/-- C5 counterexample: the claim equates the backward half of
`BiGRU(reverse x)` (computed with the *backward* parameter set) with the
forward half of `BiGRU(x)` (computed with the *forward* parameter set) at
the mirrored position.  With forward parameters `gruP0` (`W_h ≡ 1`) and
backward parameters `gruP1` (`W_h ≡ 2`) on the singleton sequence
`[vone]` (where `reverse` is the identity and the mirrored position of 0
is 0), the backward half evaluates to 1 and the forward half to 1/2. -/
theorem C5_counterexample :
    ((BiGRU_forward actsId 1 1 gruP0 gruP1 (([vone] : List Vec).reverse)).getD 0 vzero) (1 + 0) ≠
      ((BiGRU_forward actsId 1 1 gruP0 gruP1 ([vone] : List Vec)).getD 0 vzero) 0 := by
  have hL : ((BiGRU_forward actsId 1 1 gruP0 gruP1
      (([vone] : List Vec).reverse)).getD 0 vzero) (1 + 0) = 1 := by
    simp [BiGRU_forward, gruScan, vcat, BiGRU_gru_step, sigmQ, tanhQ, clip500,
      actsId, gruP0, gruP1, mvRow, mz0, vzero, vone, Finset.sum_range_succ]
    norm_num
  have hR : ((BiGRU_forward actsId 1 1 gruP0 gruP1
      ([vone] : List Vec)).getD 0 vzero) 0 = 1 / 2 := by
    simp [BiGRU_forward, gruScan, vcat, BiGRU_gru_step, sigmQ, tanhQ, clip500,
      actsId, gruP0, gruP1, mvRow, mz0, vzero, vone, Finset.sum_range_succ]
    norm_num
  rw [hL, hR]
  norm_num

/-- C5 (amended): reversing the input and reading the two halves at
mirrored positions recovers the run on the original input *with the
forward/backward parameter roles swapped*: the backward half of
`BiGRU(pf, pb, reverse x)` at `t` equals the forward half of
`BiGRU(pb, pf, x)` at `T-1-t`, and the forward half of
`BiGRU(pf, pb, reverse x)` at `t` equals the backward half of
`BiGRU(pb, pf, x)` at `T-1-t`; output length is preserved.  (The claim as
stated, without swapping the parameter sets, only holds when the two
directions share parameters.) -/
theorem C5_amended_mirror (A : Acts) (inSz hid : ℕ) (pf pb : GRUP)
    (xs : List Vec) (t : ℕ) (ht : t < xs.length) :
    (BiGRU_forward A inSz hid pf pb xs.reverse).length = xs.length ∧
    (∀ i, i < hid →
      ((BiGRU_forward A inSz hid pf pb xs.reverse).getD t vzero) (hid + i) =
        ((BiGRU_forward A inSz hid pb pf xs).getD (xs.length - 1 - t) vzero) i) ∧
    (∀ i, i < hid →
      ((BiGRU_forward A inSz hid pf pb xs.reverse).getD t vzero) i =
        ((BiGRU_forward A inSz hid pb pf xs).getD (xs.length - 1 - t) vzero) (hid + i)) := by
  have hrev : t < xs.reverse.length := by simpa using ht
  have hmir : xs.length - 1 - t < xs.length := by omega
  refine ⟨by simpa using BiGRU_forward_length A inSz hid pf pb xs.reverse, ?_, ?_⟩
  · intro i hi
    rw [bigru_bwd_half A inSz hid pf pb xs.reverse t hrev i,
      bigru_fwd_half A inSz hid pb pf xs _ hmir i hi]
    have h1 : xs.reverse.drop t = (xs.take (xs.length - t)).reverse :=
      List.drop_reverse ..
    have h2 : xs.length - 1 - t + 1 = xs.length - t := by omega
    rw [h1, List.reverse_reverse, h2]
  · intro i hi
    rw [bigru_fwd_half A inSz hid pf pb xs.reverse t hrev i hi,
      bigru_bwd_half A inSz hid pb pf xs _ hmir i]
    have h1 : xs.reverse.take (t + 1) = (xs.drop (xs.length - (t + 1))).reverse :=
      List.take_reverse ..
    have h2 : xs.length - (t + 1) = xs.length - 1 - t := by omega
    rw [h1, h2]

theorem C5_amended_mirror_witness :
    0 < ([vone] : List Vec).length ∧
    ((BiGRU_forward actsQ 1 1 gruP0 gruP1 ([vone] : List Vec).reverse).length =
        ([vone] : List Vec).length ∧
      (∀ i, i < 1 →
        ((BiGRU_forward actsQ 1 1 gruP0 gruP1 ([vone] : List Vec).reverse).getD 0 vzero) (1 + i) =
          ((BiGRU_forward actsQ 1 1 gruP1 gruP0 ([vone] : List Vec)).getD
              (([vone] : List Vec).length - 1 - 0) vzero) i) ∧
      (∀ i, i < 1 →
        ((BiGRU_forward actsQ 1 1 gruP0 gruP1 ([vone] : List Vec).reverse).getD 0 vzero) i =
          ((BiGRU_forward actsQ 1 1 gruP1 gruP0 ([vone] : List Vec)).getD
              (([vone] : List Vec).length - 1 - 0) vzero) (1 + i))) :=
  ⟨by simp, C5_amended_mirror actsQ 1 1 gruP0 gruP1 [vone] 0 (by simp)⟩

/-! ## Claim C8 -/

/-- C8: the backward half of the BiGRU output at the last position
(`T-1`, the position the fusion head reads through `[:, -1, :]`) is a
single GRU step applied to the last input element from the zero hidden
state with the backward parameters — it carries one timestep of backward
context only. -/
theorem C8_backward_last_single_step (A : Acts) (inSz hid : ℕ) (pf pb : GRUP)
    (xs : List Vec) (hne : xs ≠ []) (i : ℕ) :
    ((BiGRU_forward A inSz hid pf pb xs).getD (xs.length - 1) vzero) (hid + i) =
      BiGRU_gru_step A inSz hid pb (xs.getLast hne) vzero i := by
  have hlen : 0 < xs.length := List.length_pos.mpr hne
  rw [bigru_bwd_half A inSz hid pf pb xs (xs.length - 1) (by omega) i]
  have hdrop : xs.drop (xs.length - 1) = [xs.getLast hne] := by
    have h1 : xs.drop (xs.length - 1) =
        xs[xs.length - 1] :: xs.drop (xs.length - 1 + 1) := by
      rw [List.drop_eq_getElem_cons (by omega)]
    have h2 : xs.length - 1 + 1 = xs.length := by omega
    rw [h1, h2, List.drop_length, List.getLast_eq_getElem]
  rw [hdrop]
  rfl

theorem C8_backward_last_single_step_witness :
    ([vone] : List Vec) ≠ [] ∧
    ((BiGRU_forward actsQ 1 1 gruP0 gruP1 ([vone] : List Vec)).getD
        (([vone] : List Vec).length - 1) vzero) (1 + 0) =
      BiGRU_gru_step actsQ 1 1 gruP1
        (([vone] : List Vec).getLast (by simp)) vzero 0 :=
  ⟨by simp,
    C8_backward_last_single_step actsQ 1 1 gruP0 gruP1 [vone] (by simp) 0⟩

/-! ## Claim C2 -/

theorem inceptionConcat_nonneg (P : InceptionP) (x : Mat) (i j c : ℕ) :
    0 ≤ inceptionConcat P x i j c := by
  unfold inceptionConcat conv2Aligned
  split_ifs <;> simp [le_max_left]

/-- C2: every entry of the `InceptionCNN` output (rows `i < 26`, channels
`c < 80`) is non-negative, and equals the arithmetic mean over the 7
width positions of the channel-concatenation of the four ReLU-activated
convolution paths — channels `[0,5)` the 1×1 path, `[5,20)` the unpadded
2×2 path re-aligned to `(26, 7)` by zero-extension, `[20,45)` the 3×3
path (padding 1), `[45,80)` the 5×5 path (padding 2) — with every
concatenated pre-average value itself non-negative. -/
theorem C2_inception_mean_nonneg (P : InceptionP) (X : ℕ → Mat) (b i c : ℕ)
    (hi : i < 26) (hc : c < 80) :
    0 ≤ InceptionCNN_forwardB P X b i c ∧
    InceptionCNN_forwardB P X b i c =
      (∑ j in Finset.range 7,
        (if c < 5 then max 0 (convEntry 26 7 1 0 P.w1 P.b1 (X b) i j c)
         else if c < 20 then
           (if i < 25 ∧ j < 6 then
             max 0 (convEntry 26 7 2 0 P.w2 P.b2 (X b) i j (c - 5))
           else 0)
         else if c < 45 then max 0 (convEntry 26 7 3 1 P.w3 P.b3 (X b) i j (c - 20))
         else max 0 (convEntry 26 7 5 2 P.w5 P.b5 (X b) i j (c - 45)))) / 7 ∧
    (∀ j, 0 ≤ inceptionConcat P (X b) i j c) := by
  refine ⟨?_, rfl, fun j => inceptionConcat_nonneg P (X b) i j c⟩
  unfold InceptionCNN_forwardB InceptionCNN_forward
  have hsum : 0 ≤ ∑ j in Finset.range 7, inceptionConcat P (X b) i j c :=
    Finset.sum_nonneg fun j _ => inceptionConcat_nonneg P (X b) i j c
  positivity

theorem C2_inception_mean_nonneg_witness :
    ((0 : ℕ) < 26 ∧ (0 : ℕ) < 80) ∧
    (0 ≤ InceptionCNN_forwardB
        { w1 := tz0, b1 := vzero, w2 := tz0, b2 := vzero,
          w3 := tz0, b3 := vzero, w5 := tz0, b5 := vzero } (fun _ => mz0) 0 0 0 ∧
      InceptionCNN_forwardB
        { w1 := tz0, b1 := vzero, w2 := tz0, b2 := vzero,
          w3 := tz0, b3 := vzero, w5 := tz0, b5 := vzero } (fun _ => mz0) 0 0 0 =
        (∑ j in Finset.range 7,
          (if 0 < 5 then max 0 (convEntry 26 7 1 0 tz0 vzero (mz0) 0 j 0)
           else if 0 < 20 then
             (if 0 < 25 ∧ j < 6 then
               max 0 (convEntry 26 7 2 0 tz0 vzero (mz0) 0 j (0 - 5))
             else 0)
           else if 0 < 45 then max 0 (convEntry 26 7 3 1 tz0 vzero (mz0) 0 j (0 - 20))
           else max 0 (convEntry 26 7 5 2 tz0 vzero (mz0) 0 j (0 - 45)))) / 7 ∧
      (∀ j, 0 ≤ inceptionConcat
        { w1 := tz0, b1 := vzero, w2 := tz0, b2 := vzero,
          w3 := tz0, b3 := vzero, w5 := tz0, b5 := vzero } (mz0) 0 j 0)) :=
  ⟨⟨by decide, by decide⟩,
    C2_inception_mean_nonneg
      { w1 := tz0, b1 := vzero, w2 := tz0, b2 := vzero,
        w3 := tz0, b3 := vzero, w5 := tz0, b5 := vzero } (fun _ => mz0) 0 0 0
      (by decide) (by decide)⟩

/-! ## Claim C10 -/

/-- C10: at the last sequence row (index 25) the output channels `[5,20)`
— the slice contributed by the unpadded 2×2 convolution path — are
exactly 0, because the 2×2 path has height 25 and the re-alignment
zero-fills row 25 before concatenation and width-averaging. -/
theorem C10_row25_zero_slice (P : InceptionP) (X : ℕ → Mat) (b c : ℕ)
    (h5 : 5 ≤ c) (h20 : c < 20) :
    InceptionCNN_forwardB P X b 25 c = 0 := by
  unfold InceptionCNN_forwardB InceptionCNN_forward
  have hz : ∀ j ∈ Finset.range 7, inceptionConcat P (X b) 25 j c = 0 := by
    intro j _
    unfold inceptionConcat conv2Aligned
    rw [if_neg (by omega : ¬ c < 5), if_pos h20, if_neg (by omega : ¬ (25 < 25 ∧ j < 6))]
  rw [Finset.sum_congr rfl hz]
  simp

theorem C10_row25_zero_slice_witness :
    (5 ≤ 5 ∧ 5 < 20) ∧
    InceptionCNN_forwardB
      { w1 := tz0, b1 := vzero, w2 := tz0, b2 := vzero,
        w3 := tz0, b3 := vzero, w5 := tz0, b5 := vzero } (fun _ => mz0) 0 25 5 = 0 :=
  ⟨⟨by decide, by decide⟩,
    C10_row25_zero_slice
      { w1 := tz0, b1 := vzero, w2 := tz0, b2 := vzero,
        w3 := tz0, b3 := vzero, w5 := tz0, b5 := vzero } (fun _ => mz0) 0 5
      (by decide) (by decide)⟩

/-! ## Claim C9 -/

/-- C9: `Dense.forward` raises no error for an unrecognized activation:
for any stored activation other than exactly `some "relu"`,
`some "sigmoid"` or `some "softmax"` (including `none` and misspellings)
the result is the bare linear output `x @ W + b`. -/
theorem C9_dense_unrecognized_is_linear (A : Acts) (nIn nOut : ℕ) (w : Mat)
    (b : Vec) (act : Option String) (x : Vec)
    (h1 : act ≠ some "relu") (h2 : act ≠ some "sigmoid")
    (h3 : act ≠ some "softmax") :
    Dense_forward A nIn nOut { w := w, b := b, act := act } x =
      denseLin nIn w b x := by
  simp [Dense_forward, h1, h2, h3]

theorem C9_dense_unrecognized_is_linear_witness :
    ((some "Relu" : Option String) ≠ some "relu" ∧
      (some "Relu" : Option String) ≠ some "sigmoid" ∧
      (some "Relu" : Option String) ≠ some "softmax") ∧
    Dense_forward actsQ 2 2 { w := mz0, b := vzero, act := some "Relu" } vone =
      denseLin 2 mz0 vzero vone :=
  ⟨⟨by decide, by decide, by decide⟩,
    C9_dense_unrecognized_is_linear actsQ 2 2 mz0 vzero (some "Relu") vone
      (by decide) (by decide) (by decide)⟩

/-! ## Claim C7 -/

/-- A concrete `Conv2D` state with empty caches. -/
def conv0 : Conv2DState where
  weights := tz0
  bias := vzero
  inputCache := none
  outputCache := none

/-- C7 counterexample: a forward pass does write layer-object fields
other than the dropout masks — `Conv2D.forward` stores its input and
output into `self.input` / `self.output`, so the post-call state differs
from the pre-call state. -/
theorem C7_counterexample :
    (Conv2D_forward 1 1 1 0 conv0 mz0).2 ≠ conv0 := by
  intro h
  have h2 := congrArg Conv2DState.inputCache h
  simp [Conv2D_forward, conv0] at h2

/-- C7 (amended): a `Conv2D.forward` call never mutates the layer's
parameters (`weights`, `bias`), and its returned output is a pure
function of the parameters and the input — in particular it is
independent of the mutable `self.input` / `self.output` caches, which are
the only fields the call overwrites.  All other layers of this core are
embedded as pure functions of their construction-time parameters. -/
theorem C7_conv_frame (h w k p : ℕ) (s sAlt : Conv2DState) (x : Mat)
    (hw : sAlt.weights = s.weights) (hb : sAlt.bias = s.bias) :
    (Conv2D_forward h w k p s x).2.weights = s.weights ∧
    (Conv2D_forward h w k p s x).2.bias = s.bias ∧
    (Conv2D_forward h w k p s x).1 = (Conv2D_forward h w k p sAlt x).1 ∧
    (Conv2D_forward h w k p s x).1 =
      fun i j f => convEntry h w k p s.weights s.bias x i j f := by
  refine ⟨rfl, rfl, ?_, rfl⟩
  simp [Conv2D_forward, hw, hb]

theorem C7_conv_frame_witness :
    (({ conv0 with inputCache := some mz0 } : Conv2DState).weights = conv0.weights ∧
      ({ conv0 with inputCache := some mz0 } : Conv2DState).bias = conv0.bias) ∧
    ((Conv2D_forward 1 1 1 0 conv0 mz0).2.weights = conv0.weights ∧
      (Conv2D_forward 1 1 1 0 conv0 mz0).2.bias = conv0.bias ∧
      (Conv2D_forward 1 1 1 0 conv0 mz0).1 =
        (Conv2D_forward 1 1 1 0 { conv0 with inputCache := some mz0 } mz0).1 ∧
      (Conv2D_forward 1 1 1 0 conv0 mz0).1 =
        fun i j f => convEntry 1 1 1 0 conv0.weights conv0.bias mz0 i j f) :=
  ⟨⟨rfl, rfl⟩,
    C7_conv_frame 1 1 1 0 conv0 { conv0 with inputCache := some mz0 } mz0 rfl rfl⟩

/-! ## Option and embedding-lookup lemmas (for claims about `BERTBranch`) -/

theorem npIndex_isSome_iff (V : ℕ) (i : ℤ) :
    (npIndex V i).isSome = true ↔ (-(V : ℤ) ≤ i ∧ i < V) := by
  unfold npIndex
  split_ifs with h1 h2 <;> simp <;> omega

theorem isSome_bind {α β : Type} (o : Option α) (f : α → Option β) :
    (o.bind f).isSome = true ↔ ∃ a, o = some a ∧ (f a).isSome = true := by
  cases o <;> simp

theorem mapOpt_some_length {α β : Type} (f : α → Option β) :
    ∀ (l : List α) (l2 : List β), mapOpt f l = some l2 → l2.length = l.length := by
  intro l
  induction l with
  | nil =>
    intro l2 h
    simp [mapOpt] at h
    simp [← h]
  | cons a l ih =>
    intro l2 h
    unfold mapOpt at h
    cases ha : f a with
    | none => rw [ha] at h; simp at h
    | some b =>
      rw [ha] at h
      cases hl : mapOpt f l with
      | none => rw [hl] at h; simp at h
      | some bs =>
        rw [hl] at h
        simp at h
        rw [← h]
        simp [ih bs hl]

theorem mapOpt_isSome_iff {α β : Type} (f : α → Option β) (l : List α) :
    (mapOpt f l).isSome = true ↔ ∀ a ∈ l, (f a).isSome = true := by
  induction l with
  | nil => simp [mapOpt]
  | cons a l ih =>
    unfold mapOpt
    cases ha : f a with
    | none => simp [ha]
    | some b =>
      cases hl : mapOpt f l with
      | none =>
        rw [hl] at ih
        simp only [Option.some_bind, Option.none_bind]
        simp at ih ⊢
        intro hfa
        exact ih
      | some bs =>
        rw [hl] at ih
        simp only [Option.some_bind]
        simp at ih ⊢
        exact ⟨by simp [ha], ih⟩

theorem mapOpt_npIndex_isSome (V : ℕ) (l : List ℤ) :
    (mapOpt (npIndex V) l).isSome = true ↔ ∀ i ∈ l, -(V : ℤ) ≤ i ∧ i < V := by
  rw [mapOpt_isSome_iff]
  constructor
  · intro h i hi
    exact (npIndex_isSome_iff V i).mp (h i hi)
  · intro h i hi
    exact (npIndex_isSome_iff V i).mpr (h i hi)

theorem Embedding_isSome_iff (V : ℕ) (E : ℕ → Vec) (ids : List ℤ) :
    (Embedding_forward V E ids).isSome = true ↔
      ∀ i ∈ ids, -(V : ℤ) ≤ i ∧ i < V := by
  unfold Embedding_forward
  rw [Option.isSome_map']
  exact mapOpt_npIndex_isSome V ids

theorem Embedding_some_length (V : ℕ) (E : ℕ → Vec) (ids : List ℤ)
    (es : List Vec) (h : Embedding_forward V E ids = some es) :
    es.length = ids.length := by
  unfold Embedding_forward at h
  cases hm : mapOpt (npIndex V) ids with
  | none => rw [hm] at h; simp at h
  | some ks =>
    rw [hm] at h
    simp at h
    rw [← h]
    simp [mapOpt_some_length (npIndex V) ids ks hm]

/-- Sequence-axis broadcast compatibility of two lengths for numpy
elementwise addition. -/
def bcompat (a b : ℕ) : Prop := a = b ∨ a = 1 ∨ b = 1

/-- The broadcast result length of two compatible sequence lengths. -/
def blen (a b : ℕ) : ℕ := if a = b then a else if a = 1 then b else a

theorem bcastAdd_isSome_iff (u v : List Vec) :
    (bcastAdd u v).isSome = true ↔ bcompat u.length v.length := by
  unfold bcastAdd bcompat
  split_ifs with h1 h2 h3 <;> simp_all

theorem bcastAdd_some_length (u v : List Vec) (c : List Vec)
    (h : bcastAdd u v = some c) : c.length = blen u.length v.length := by
  unfold bcastAdd at h
  split_ifs at h with h1 h2 h3
  · simp at h
    simp only [← h, List.length_zipWith, blen, if_pos h1]
    omega
  · simp at h
    simp only [← h, List.length_map, blen, if_neg h1, if_pos h2]
  · simp at h
    simp only [← h, List.length_map, blen, if_neg h1, if_neg h2]

theorem optBind_isSome {α β : Type} (o : Option α) (f : α → Option β) :
    ((o >>= f).isSome = true) ↔ ∃ a, o = some a ∧ (f a).isSome = true := by
  cases o <;> simp

theorem optBind_isSome2 {α β : Type} (o : Option α) (f : α → Option β) :
    ((o.bind f).isSome = true) ↔ ∃ a, o = some a ∧ (f a).isSome = true := by
  cases o <;> simp

/-! ### Length preservation through the transformer stack -/

theorem MultiHeadAttention_length (A : Acts) (D H : ℕ) (p : MHAP) (x : List Vec) :
    (MultiHeadAttention_forward A D H p x).length = x.length := by
  simp [MultiHeadAttention_forward]

theorem TransformerBlock_length (A : Acts) (D H : ℕ) (p : TBP) (tr : Bool)
    (m : TBMask) (x : List Vec) :
    (TransformerBlock_forward A D H p tr m x).length = x.length := by
  simp [TransformerBlock_forward, dropoutSeq_length, List.length_zipWith,
    MultiHeadAttention_length]

theorem runBlocks_length (A : Acts) (D H : ℕ) (tr : Bool) (ms : ℕ → TBMask) :
    ∀ (ls : List TBP) (k : ℕ) (x : List Vec),
      (runBlocks A D H tr ms k ls x).length = x.length := by
  intro ls
  induction ls with
  | nil => intro k x; rfl
  | cons p rest ih =>
    intro k x
    unfold runBlocks
    rw [ih (k + 1)]
    exact TransformerBlock_length ..

/-! ## Concrete BERT/CRISPR instances for witnesses and counterexamples -/

/-- LayerNorm parameters at their construction values (`gamma = 1`,
`beta = 0`, `eps = 1e-6`). -/
def lnOne : LNP where
  g := vone
  beta := vzero
  eps := 1 / 1000000

/-- Zero-weight feed-forward block with the default `ff_dim = 1024`. -/
def ffZ : FFP where
  F := 1024
  W1 := mz0
  b1 := vzero
  W2 := mz0
  b2 := vzero

/-- Zero-weight attention projections. -/
def mhaZ : MHAP where
  Wq := mz0
  Wk := mz0
  Wv := mz0
  Wo := mz0

/-- A transformer block with zero weights and the default dropout rate
0.1. -/
def tbZ : TBP where
  att := mhaZ
  n1 := lnOne
  ff := ffZ
  n2 := lnOne
  rate := 1 / 10

/-- A `BERTBranch` with the constructor defaults (`vocab_size = 28`,
`embed_dim = 256`, `num_heads = 4`, `num_layers = 2`) and zero weights. -/
def bertZ : BertP where
  V := 28
  D := 256
  H := 4
  tokE := fun _ => vzero
  posE := fun _ => vzero
  segE := fun _ => vzero
  embN := lnOne
  layers := [tbZ, tbZ]
  projW := mz0
  projB := vzero

/-- All-ones transformer block masks. -/
def tbMask1 : TBMask where
  mAtt := fun _ _ => 1
  mFfn := fun _ _ => 1

/-- All-ones BERT mask bundle. -/
def bertMasks1 : BertMasks where
  emb := fun _ _ => 1
  blocks := fun _ => tbMask1

/-- All-ones CRISPR mask bundle. -/
def crisprMasks1 : CrisprMasks where
  bert := bertMasks1
  m1 := vone
  m2 := vone

/-- An all-zero inception parameter set. -/
def incepZ : InceptionP where
  w1 := tz0; b1 := vzero
  w2 := tz0; b2 := vzero
  w3 := tz0; b3 := vzero
  w5 := tz0; b5 := vzero

/-- A `CRISPR_BERT` instance with zero weights everywhere. -/
def crisprZ : CrisprP where
  incep := incepZ
  bert := bertZ
  cnnGf := gruZ
  cnnGb := gruZ
  bertGf := gruZ
  bertGb := gruZ
  d1 := { w := mz0, b := vzero }
  d2 := { w := mz0, b := vzero }
  d3 := { w := mz0, b := vzero }

/-! ## Claim C4 -/

/-- C4 counterexample: `BERTBranch.forward` does *not* fail whenever an ID
tensor has length different from 26 or contains a value outside `[0, V)`.
With all three ID tensors of common length 25 the call succeeds, and a
token id of `-1` (outside `[0, 28)`) also succeeds because numpy indexing
accepts negative ids down to `-V` (wrap-around); likewise a bare
`Embedding` lookup of `[-1]` succeeds. -/
theorem C4_counterexample :
    (BERTBranch_forward actsQ bertZ (List.replicate 25 0) (List.replicate 25 0)
        (List.replicate 25 0) false bertMasks1).isSome = true ∧
    (BERTBranch_forward actsQ bertZ ((-1) :: List.replicate 25 0)
        (List.replicate 26 0) (List.replicate 26 0) false bertMasks1).isSome = true ∧
    (Embedding_forward 28 (fun _ => vzero) [(-1 : ℤ)]).isSome = true := by
  refine ⟨?_, ?_, ?_⟩ <;> decide

/-- `BERTBranch.forward` succeeds exactly when every id is inside numpy's
accepted index range for its table and the three lengths are
broadcast-compatible. -/
theorem bert_isSome_iff (A : Acts) (p : BertP)
    (tok seg pos : List ℤ) (tr : Bool) (M : BertMasks) :
    (BERTBranch_forward A p tok seg pos tr M).isSome = true ↔
      ((∀ i ∈ tok, -(p.V : ℤ) ≤ i ∧ i < p.V) ∧
       (∀ i ∈ pos, -(26 : ℤ) ≤ i ∧ i < 26) ∧
       (∀ i ∈ seg, -(2 : ℤ) ≤ i ∧ i < 2) ∧
       bcompat tok.length pos.length ∧
       bcompat (blen tok.length pos.length) seg.length) := by
  unfold BERTBranch_forward
  simp only [bind, Option.pure_def]
  simp only [optBind_isSome2, Option.isSome_some, and_true]
  constructor
  · rintro ⟨tokEm, htokEm, posEm, hposEm, segEm, hsegEm, s1, hs1, emb, hemb⟩
    have ltok := Embedding_some_length _ _ _ _ htokEm
    have lpos := Embedding_some_length _ _ _ _ hposEm
    have lseg := Embedding_some_length _ _ _ _ hsegEm
    refine ⟨?_, ?_, ?_, ?_, ?_⟩
    · exact (Embedding_isSome_iff p.V p.tokE tok).mp (by rw [htokEm]; rfl)
    · exact (Embedding_isSome_iff 26 p.posE pos).mp (by rw [hposEm]; rfl)
    · exact (Embedding_isSome_iff 2 p.segE seg).mp (by rw [hsegEm]; rfl)
    · have hc := (bcastAdd_isSome_iff tokEm posEm).mp (by rw [hs1]; rfl)
      rwa [ltok, lpos] at hc
    · have hc := (bcastAdd_isSome_iff s1 segEm).mp (by rw [hemb]; rfl)
      have ls1 := bcastAdd_some_length _ _ _ hs1
      rwa [ls1, ltok, lpos, lseg] at hc
  · rintro ⟨h1, h2, h3, h4, h5⟩
    obtain ⟨tokEm, htokEm⟩ :=
      Option.isSome_iff_exists.mp ((Embedding_isSome_iff p.V p.tokE tok).mpr h1)
    obtain ⟨posEm, hposEm⟩ :=
      Option.isSome_iff_exists.mp ((Embedding_isSome_iff 26 p.posE pos).mpr h2)
    obtain ⟨segEm, hsegEm⟩ :=
      Option.isSome_iff_exists.mp ((Embedding_isSome_iff 2 p.segE seg).mpr h3)
    have ltok := Embedding_some_length _ _ _ _ htokEm
    have lpos := Embedding_some_length _ _ _ _ hposEm
    have lseg := Embedding_some_length _ _ _ _ hsegEm
    obtain ⟨s1, hs1⟩ := Option.isSome_iff_exists.mp
      ((bcastAdd_isSome_iff tokEm posEm).mpr (by rw [ltok, lpos]; exact h4))
    have ls1 := bcastAdd_some_length _ _ _ hs1
    obtain ⟨emb, hemb⟩ := Option.isSome_iff_exists.mp
      ((bcastAdd_isSome_iff s1 segEm).mpr
        (by rw [ls1, ltok, lpos, lseg]; exact h5))
    exact ⟨tokEm, htokEm, posEm, hposEm, segEm, hsegEm, s1, hs1, emb, hemb⟩

/-- C4 (amended): `BERTBranch.forward` fails exactly when some id is
outside numpy's accepted index range `[-V, V)` for its table (token table
size `V = vocab_size`, position table size 26, segment table size 2), or
the three ID tensor lengths are incompatible for numpy broadcasting of
the embedding sum.  A common length different from 26 does not fail, and
negative ids in `[-V, 0)` succeed by wrap-around. -/
theorem C4_amended_bert_failure_iff (A : Acts) (p : BertP)
    (tok seg pos : List ℤ) (tr : Bool) (M : BertMasks) :
    (BERTBranch_forward A p tok seg pos tr M).isSome = true ↔
      ((∀ i ∈ tok, -(p.V : ℤ) ≤ i ∧ i < p.V) ∧
       (∀ i ∈ pos, -(26 : ℤ) ≤ i ∧ i < 26) ∧
       (∀ i ∈ seg, -(2 : ℤ) ≤ i ∧ i < 2) ∧
       bcompat tok.length pos.length ∧
       bcompat (blen tok.length pos.length) seg.length) :=
  bert_isSome_iff A p tok seg pos tr M

/-! ## Inference-mode determinism (helpers for claim C6) -/

theorem tblock_inference (A : Acts) (D H : ℕ) (p : TBP) (m m2 : TBMask)
    (x : List Vec) :
    TransformerBlock_forward A D H p false m x =
      TransformerBlock_forward A D H p false m2 x := by
  simp [TransformerBlock_forward, dropoutSeq_not_training]

theorem runBlocks_inference (A : Acts) (D H : ℕ) (ms ms2 : ℕ → TBMask) :
    ∀ (ls : List TBP) (k k2 : ℕ) (x : List Vec),
      runBlocks A D H false ms k ls x = runBlocks A D H false ms2 k2 ls x := by
  intro ls
  induction ls with
  | nil => intro k k2 x; rfl
  | cons p rest ih =>
    intro k k2 x
    unfold runBlocks
    rw [tblock_inference A D H p (ms k) (ms2 k2) x]
    exact ih (k + 1) (k2 + 1) _

theorem bert_inference (A : Acts) (p : BertP) (tok seg pos : List ℤ)
    (M M2 : BertMasks) :
    BERTBranch_forward A p tok seg pos false M =
      BERTBranch_forward A p tok seg pos false M2 := by
  unfold BERTBranch_forward
  simp only [bind, Option.pure_def]
  congr 1
  funext tokEm
  congr 1
  funext posEm
  congr 1
  funext segEm
  congr 1
  funext s1
  congr 1
  funext emb
  rw [dropoutSeq_not_training, dropoutSeq_not_training,
    runBlocks_inference A p.D p.H M.blocks M2.blocks p.layers 0 0]

theorem crispr_inference (A : Acts) (θ : CrisprP) (cnnIn : Mat)
    (tok seg pos : List ℤ) (M M2 : CrisprMasks) :
    CRISPR_BERT_predict A θ cnnIn tok seg pos M =
      CRISPR_BERT_predict A θ cnnIn tok seg pos M2 := by
  unfold CRISPR_BERT_predict CRISPR_BERT_forward
  rw [bert_inference A θ.bert tok seg pos M.bert M2.bert]
  rfl

/-! ## Claim C6 -/

/-- C6: inference is deterministic.  `CRISPR_BERT.predict` runs the
forward pass with `training = False`, so `Dropout.forward` is the
identity at every dropout site and the per-call random masks (modelled as
oracle arguments) cannot influence the result: any two mask draws yield
the identical output.  Likewise `Dropout.forward` is the identity
whenever `training` is false or the rate is 0. -/
theorem C6_predict_deterministic (A : Acts) (θ : CrisprP) (cnnIn : Mat)
    (tok seg pos : List ℤ) :
    (∀ M M2 : CrisprMasks,
      CRISPR_BERT_predict A θ cnnIn tok seg pos M =
        CRISPR_BERT_predict A θ cnnIn tok seg pos M2) ∧
    (∀ (rate : ℚ) (m x : Vec), Dropout_forward rate false m x = x) ∧
    (∀ (tr : Bool) (m x : Vec), Dropout_forward 0 tr m x = x) :=
  ⟨fun M M2 => crispr_inference A θ cnnIn tok seg pos M M2,
    dropout_not_training, dropout_rate_zero⟩

/-! ## Helpers for the top-level fusion claim -/

theorem bert_some_length (A : Acts) (p : BertP) (tok seg pos : List ℤ)
    (tr : Bool) (M : BertMasks) (bf : List Vec)
    (h : BERTBranch_forward A p tok seg pos tr M = some bf) :
    bf.length = blen (blen tok.length pos.length) seg.length := by
  unfold BERTBranch_forward at h
  simp only [bind, Option.pure_def] at h
  cases htok : Embedding_forward p.V p.tokE tok with
  | none => rw [htok] at h; simp at h
  | some tokEm =>
  rw [htok] at h
  simp only [Option.some_bind] at h
  cases hpos : Embedding_forward 26 p.posE pos with
  | none => rw [hpos] at h; simp at h
  | some posEm =>
  rw [hpos] at h
  simp only [Option.some_bind] at h
  cases hseg : Embedding_forward 2 p.segE seg with
  | none => rw [hseg] at h; simp at h
  | some segEm =>
  rw [hseg] at h
  simp only [Option.some_bind] at h
  cases hs1 : bcastAdd tokEm posEm with
  | none => rw [hs1] at h; simp at h
  | some s1 =>
  rw [hs1] at h
  simp only [Option.some_bind] at h
  cases hemb : bcastAdd s1 segEm with
  | none => rw [hemb] at h; simp at h
  | some emb =>
  rw [hemb] at h
  simp only [Option.some_bind, Option.some.injEq] at h
  rw [← h]
  rw [List.length_map, runBlocks_length, dropoutSeq_length, List.length_map]
  rw [bcastAdd_some_length _ _ _ hemb, bcastAdd_some_length _ _ _ hs1]
  rw [Embedding_some_length _ _ _ _ htok, Embedding_some_length _ _ _ _ hpos,
    Embedding_some_length _ _ _ _ hseg]

theorem dense_softmax_simplex (A : Acts) (hexp : ∀ q, 0 < A.exp q)
    (nIn : ℕ) (w : Mat) (bb : Vec) (x : Vec) :
    (0 ≤ Dense_forward A nIn 2 { w := w, b := bb, act := some "softmax" } x 0 ∧
      Dense_forward A nIn 2 { w := w, b := bb, act := some "softmax" } x 0 ≤ 1) ∧
    (0 ≤ Dense_forward A nIn 2 { w := w, b := bb, act := some "softmax" } x 1 ∧
      Dense_forward A nIn 2 { w := w, b := bb, act := some "softmax" } x 1 ≤ 1) ∧
    Dense_forward A nIn 2 { w := w, b := bb, act := some "softmax" } x 0 +
      Dense_forward A nIn 2 { w := w, b := bb, act := some "softmax" } x 1 = 1 := by
  unfold Dense_forward
  rw [if_neg (by simp), if_neg (by simp), if_pos rfl]
  set lin := denseLin nIn w bb x with hlin
  set m := listMax ((List.range 2).map lin) with hm
  have hsum : (∑ k in Finset.range 2, A.exp (lin k - m)) =
      A.exp (lin 0 - m) + A.exp (lin 1 - m) := by
    rw [Finset.sum_range_succ, Finset.sum_range_one]
  have h0 : 0 < A.exp (lin 0 - m) := hexp _
  have h1 : 0 < A.exp (lin 1 - m) := hexp _
  have hS : 0 < A.exp (lin 0 - m) + A.exp (lin 1 - m) := by linarith
  rw [hsum]
  refine ⟨⟨?_, ?_⟩, ⟨?_, ?_⟩, ?_⟩
  · positivity
  · rw [div_le_one hS]; linarith
  · positivity
  · rw [div_le_one hS]; linarith
  · rw [div_add_div_same, div_self (ne_of_gt hS)]

/-! ## Claim C1 -/

/-- The conclusion of the top-level fusion claim for one batch row: the
inference pass succeeds; its value is the softmax head applied to the
ReLU dense stack over the concatenation of the 0.2-scaled CNN-BiGRU and
0.8-scaled BERT-BiGRU last-position vectors (each BiGRU has hidden width
20 per direction, the branch features have 26 rows); the two output
entries lie in `[0, 1]` and sum exactly to 1; and `predict_class` returns
the index of the larger entry. -/
def fusionSpec (A : Acts) (θ : CrisprP) (cnnIn : Mat)
    (tok seg pos : List ℤ) (M : CrisprMasks) : Prop :=
  ∃ out : Vec,
    CRISPR_BERT_predict A θ cnnIn tok seg pos M = some out ∧
    (∃ bertFeat, BERTBranch_forward A θ.bert tok seg pos false M.bert = some bertFeat ∧
      bertFeat.length = 26 ∧
      out = Dense_forward A 64 2 { w := θ.d3.w, b := θ.d3.b, act := some "softmax" }
        (Dense_forward A 128 64 { w := θ.d2.w, b := θ.d2.b, act := some "relu" }
          (Dense_forward A 80 128 { w := θ.d1.w, b := θ.d1.b, act := some "relu" }
            (vcat 40
              (fun i => 0.2 * ((BiGRU_forward A 80 20 θ.cnnGf θ.cnnGb
                ((List.range 26).map (fun t => fun c =>
                  InceptionCNN_forward θ.incep cnnIn t c))).getD 25 vzero) i)
              (fun i => 0.8 * ((BiGRU_forward A 80 20 θ.bertGf θ.bertGb
                bertFeat).getD 25 vzero) i))))) ∧
    (0 ≤ out 0 ∧ out 0 ≤ 1) ∧ (0 ≤ out 1 ∧ out 1 ≤ 1) ∧
    out 0 + out 1 = 1 ∧
    CRISPR_BERT_predict_class A θ cnnIn tok seg pos M =
      some (if out 0 < out 1 then 1 else 0) ∧
    out (if out 0 < out 1 then 1 else 0) = max (out 0) (out 1)

/-- C1: for every batch row of valid inputs (ids in range, ID tensors of
length 26) and every exp stand-in that is positive everywhere, the
top-level fusion inference pass satisfies `fusionSpec`: it computes the
described branch/BiGRU/weighted-concatenation/dense pipeline and returns
a 2-entry probability vector, and `predict_class` picks the larger
entry's index. -/
theorem C1_fusion_predict (A : Acts) (θ : CrisprP) (X : ℕ → Mat) (b : ℕ)
    (tok seg pos : List ℤ) (M : CrisprMasks)
    (hexp : ∀ q, 0 < A.exp q)
    (htok : ∀ i ∈ tok, 0 ≤ i ∧ i < (θ.bert.V : ℤ))
    (hpos : ∀ i ∈ pos, 0 ≤ i ∧ i < (26 : ℤ))
    (hseg : ∀ i ∈ seg, 0 ≤ i ∧ i < (2 : ℤ))
    (hlt : tok.length = 26) (hlp : pos.length = 26) (hls : seg.length = 26) :
    fusionSpec A θ (X b) tok seg pos M := by
  have hV : ∀ i ∈ tok, -(θ.bert.V : ℤ) ≤ i ∧ i < θ.bert.V := by
    intro i hi
    have h := htok i hi
    have hnn : (0 : ℤ) ≤ (θ.bert.V : ℤ) := Int.natCast_nonneg _
    exact ⟨by omega, h.2⟩
  have hP : ∀ i ∈ pos, -(26 : ℤ) ≤ i ∧ i < 26 := by
    intro i hi
    have h := hpos i hi
    exact ⟨by omega, h.2⟩
  have hSg : ∀ i ∈ seg, -(2 : ℤ) ≤ i ∧ i < 2 := by
    intro i hi
    have h := hseg i hi
    exact ⟨by omega, h.2⟩
  have hcompat1 : bcompat tok.length pos.length := Or.inl (by rw [hlt, hlp])
  have hcompat2 : bcompat (blen tok.length pos.length) seg.length := by
    left
    rw [hlt, hlp, hls]
    simp [blen]
  have hsome := (bert_isSome_iff A θ.bert tok seg pos false M.bert).mpr
    ⟨hV, hP, hSg, hcompat1, hcompat2⟩
  obtain ⟨bf, hbf⟩ := Option.isSome_iff_exists.mp hsome
  have hbfl : bf.length = 26 := by
    have h := bert_some_length A θ.bert tok seg pos false M.bert bf hbf
    rw [hlt, hlp, hls] at h
    simpa [blen] using h
  refine ⟨_, ?_, ⟨bf, hbf, hbfl, rfl⟩, ?_, ?_, ?_, ?_, ?_⟩
  · unfold CRISPR_BERT_predict CRISPR_BERT_forward
    rw [hbf, Option.map_some']
    simp only [dropout_not_training, BiGRU_forward_length, List.length_map,
      List.length_range, hbfl]
  · exact (dense_softmax_simplex A hexp 64 θ.d3.w θ.d3.b _).1
  · exact (dense_softmax_simplex A hexp 64 θ.d3.w θ.d3.b _).2.1
  · exact (dense_softmax_simplex A hexp 64 θ.d3.w θ.d3.b _).2.2
  · unfold CRISPR_BERT_predict_class
    unfold CRISPR_BERT_predict CRISPR_BERT_forward
    rw [hbf, Option.map_some']
    simp only [dropout_not_training, BiGRU_forward_length, List.length_map,
      List.length_range, hbfl, Option.map_some']
  · by_cases h : (Dense_forward A 64 2 { w := θ.d3.w, b := θ.d3.b, act := some "softmax" }
        (Dense_forward A 128 64 { w := θ.d2.w, b := θ.d2.b, act := some "relu" }
          (Dense_forward A 80 128 { w := θ.d1.w, b := θ.d1.b, act := some "relu" }
            (vcat 40
              (fun i => 0.2 * ((BiGRU_forward A 80 20 θ.cnnGf θ.cnnGb
                ((List.range 26).map (fun t => fun c =>
                  InceptionCNN_forward θ.incep (X b) t c))).getD 25 vzero) i)
              (fun i => 0.8 * ((BiGRU_forward A 80 20 θ.bertGf θ.bertGb
                bf).getD 25 vzero) i))))) 0 <
      (Dense_forward A 64 2 { w := θ.d3.w, b := θ.d3.b, act := some "softmax" }
        (Dense_forward A 128 64 { w := θ.d2.w, b := θ.d2.b, act := some "relu" }
          (Dense_forward A 80 128 { w := θ.d1.w, b := θ.d1.b, act := some "relu" }
            (vcat 40
              (fun i => 0.2 * ((BiGRU_forward A 80 20 θ.cnnGf θ.cnnGb
                ((List.range 26).map (fun t => fun c =>
                  InceptionCNN_forward θ.incep (X b) t c))).getD 25 vzero) i)
              (fun i => 0.8 * ((BiGRU_forward A 80 20 θ.bertGf θ.bertGb
                bf).getD 25 vzero) i))))) 1
    · rw [if_pos h, max_eq_right h.le]
    · rw [if_neg h, max_eq_left (not_lt.mp h)]

theorem C1_fusion_predict_witness :
    ((∀ q, 0 < actsQ.exp q) ∧
      (List.replicate 26 (0 : ℤ)).length = 26) ∧
    fusionSpec actsQ crisprZ mz0 (List.replicate 26 0) (List.replicate 26 0)
      (List.replicate 26 0) crisprMasks1 :=
  ⟨⟨actsQ_exp_pos, by simp⟩,
    C1_fusion_predict actsQ crisprZ (fun _ => mz0) 0 (List.replicate 26 0)
      (List.replicate 26 0) (List.replicate 26 0) crisprMasks1
      actsQ_exp_pos
      (by
        intro i hi
        rw [List.eq_of_mem_replicate hi]
        exact ⟨le_refl 0, by norm_num [crisprZ, bertZ]⟩)
      (by
        intro i hi
        rw [List.eq_of_mem_replicate hi]
        exact ⟨le_refl 0, by norm_num⟩)
      (by
        intro i hi
        rw [List.eq_of_mem_replicate hi]
        exact ⟨le_refl 0, by norm_num⟩)
      (by simp) (by simp) (by simp)⟩
